import Mathlib

/-!
Shallow embedding of `src/helper.py` (pairs-trading backtest helpers):
`generate_positions`, `calculate_returns`, `fit_rolling_params`.

Modelling conventions:
* A pandas `Series` is a `Series α`: an index list (integers standing for
  time keys) plus a value list.
* Finite floats are modelled as rationals.  Where the code's behaviour on
  non-finite floats matters (the z-score input of `generate_positions`),
  values are modelled by `EFloat` (NaN, +inf, -inf, or a finite rational)
  with IEEE comparison semantics: every comparison with NaN is false,
  +inf is greater than every finite value, -inf smaller.
* The external library calls `sm.OLS(...).fit()` and `coint` are injected
  capabilities: `ols` returns the fitted `(alpha, beta)` pair and `coint`
  returns `some pval`, or `none` when the test raises.
* `pandas.Series.std()` (sample standard deviation, ddof = 1) is the real
  square root of the sample variance; for a series of length < 2 pandas
  yields NaN, which compares false against `> 0` — the guards below encode
  exactly that comparison outcome.
-/

/-- A pandas Series: an index together with the stored values. -/
structure Series (α : Type) where
  index : List ℤ
  values : List α
deriving Repr, DecidableEq

/-- IEEE-style float value: NaN, the two infinities, or a finite rational. -/
inductive EFloat where
  | nan
  | inf
  | ninf
  | fin (q : ℚ)
deriving Repr, DecidableEq

/-- IEEE `<` on `EFloat`: any comparison involving NaN is false. -/
def EFloat.ltB : EFloat → EFloat → Bool
  | .nan, _ => false
  | _, .nan => false
  | .ninf, .ninf => false
  | .ninf, _ => true
  | _, .ninf => false
  | .inf, _ => false
  | .fin _, .inf => true
  | .fin q, .fin r => decide (q < r)

/-- IEEE `>` on `EFloat`. -/
def EFloat.gtB (a b : EFloat) : Bool := EFloat.ltB b a

/-- `abs` on `EFloat`: `abs(NaN) = NaN`, `abs(±inf) = +inf`. -/
def EFloat.absE : EFloat → EFloat
  | .nan => .nan
  | .inf => .inf
  | .ninf => .inf
  | .fin q => .fin |q|

/-- One iteration of the `generate_positions` loop (`src/helper.py`
lines 16-48): the current `in_trade` value and the z-score at this step
determine the appended position, which always equals the new `in_trade`. -/
def genStep (entry_threshold exit_threshold stop_z : ℚ) (in_trade : ℤ)
    (z : EFloat) : ℤ :=
  if in_trade = 0 then
    if z.gtB (.fin entry_threshold) then -1
    else if z.ltB (.fin (-entry_threshold)) then 1
    else 0
  else if in_trade = 1 then
    if z.absE.ltB (.fin exit_threshold) then 0
    else if z.ltB (.fin (-stop_z)) then 0
    else 1
  else
    if z.absE.ltB (.fin exit_threshold) then 0
    else if z.gtB (.fin stop_z) then 0
    else -1

/-- The `generate_positions` loop: starting from the given `in_trade`
state, emit one position per z-score; the emitted position is the new
state carried to the next step. -/
def genPositionsAux (entry_threshold exit_threshold stop_z : ℚ)
    (in_trade : ℤ) : List EFloat → List ℤ
  | [] => []
  | z :: rest =>
      let s := genStep entry_threshold exit_threshold stop_z in_trade z
      s :: genPositionsAux entry_threshold exit_threshold stop_z s rest

/-- `generate_positions(zscore, entry_threshold, exit_threshold, stop_z=3.0)`
(`src/helper.py` lines 6-50): runs the trading loop from `in_trade = 0`
and returns `pd.Series(positions, index=zscore.index)`. -/
def generate_positions (zscore : Series EFloat)
    (entry_threshold exit_threshold : ℚ) (stop_z : ℚ := 3) : Series ℤ :=
  ⟨zscore.index,
   genPositionsAux entry_threshold exit_threshold stop_z 0 zscore.values⟩

/-- The spec's state set {Flat, Long, Short}. -/
inductive PosState where
  | flat
  | long
  | shrt
deriving Repr, DecidableEq

/-- Position value emitted for each state: Flat 0, Long +1, Short -1. -/
def PosState.toInt : PosState → ℤ
  | .flat => 0
  | .long => 1
  | .shrt => -1

/-- The spec's transition table (conditions checked in order): written
from the specification's state-machine table, to be compared with the
code's `genStep`. -/
def specStep (entry_threshold exit_threshold stop_z : ℚ) :
    PosState → EFloat → PosState
  | .flat, z =>
      if z.gtB (.fin entry_threshold) then .shrt
      else if z.ltB (.fin (-entry_threshold)) then .long
      else .flat
  | .long, z =>
      if z.absE.ltB (.fin exit_threshold) then .flat
      else if z.ltB (.fin (-stop_z)) then .flat
      else .long
  | .shrt, z =>
      if z.absE.ltB (.fin exit_threshold) then .flat
      else if z.gtB (.fin stop_z) then .flat
      else .shrt

/-- Run the spec's machine from a state, emitting the new state at each
step. -/
def specRun (entry_threshold exit_threshold stop_z : ℚ) :
    PosState → List EFloat → List PosState
  | _, [] => []
  | s, z :: rest =>
      let s' := specStep entry_threshold exit_threshold stop_z s z
      s' :: specRun entry_threshold exit_threshold stop_z s' rest

/-- `l.mean()` of pandas: sum divided by length. -/
def listMean (l : List ℚ) : ℚ := l.sum / l.length

/-- Sample variance with `ddof = 1` (the square of pandas `.std()`); for
length < 2 pandas `.std()` is NaN — callers below encode the NaN cases by
a length guard, so the value returned here for short lists is never used. -/
def sampleVar (l : List ℚ) : ℚ :=
  if l.length ≤ 1 then 0
  else ((l.map fun x => (x - listMean l) ^ 2).sum) / (l.length - 1)

/-- pandas `.std()` (ddof = 1) as a real number, for series of length ≥ 2. -/
noncomputable def sampleStd (l : List ℚ) : ℝ := Real.sqrt (sampleVar l)

/-- `alphas = pd.Series(0.0 if alphas is None else alphas, index=px.index)`
(`src/helper.py` line 55): a missing `alphas` broadcasts the scalar 0. -/
def alphasOr (n : ℕ) (alphas : Option (List ℚ)) : List ℚ :=
  alphas.getD (List.replicate n 0)

/-- `spread = px - (alphas + betas * py)` at index `i`
(`src/helper.py` line 58). -/
def spreadAt (px py alphas betas : List ℚ) (i : ℕ) : ℚ :=
  px.getD i 0 - (alphas.getD i 0 + betas.getD i 0 * py.getD i 0)

/-- `spread_change = spread.diff().fillna(0)` at index `i`
(`src/helper.py` line 59). -/
def spreadChangeAt (px py alphas betas : List ℚ) (i : ℕ) : ℚ :=
  if i = 0 then 0
  else spreadAt px py alphas betas i - spreadAt px py alphas betas (i - 1)

/-- `pos_lag = positions.shift(1).fillna(0)` at index `i`
(`src/helper.py` line 61). -/
def posLagAt (positions : List ℤ) (i : ℕ) : ℚ :=
  if i = 0 then 0 else ((positions.getD (i - 1) 0 : ℤ) : ℚ)

/-- `strategy_pnl = pos_lag * spread_change` at index `i`
(`src/helper.py` line 62). -/
def strategyPnlAt (px py alphas betas : List ℚ) (positions : List ℤ)
    (i : ℕ) : ℚ :=
  posLagAt positions i * spreadChangeAt px py alphas betas i

/-- `gross_notional = px.abs() + (betas.abs() * py.abs())` at index `i`
(`src/helper.py` line 65). -/
def grossNotionalAt (px py betas : List ℚ) (i : ℕ) : ℚ :=
  |px.getD i 0| + |betas.getD i 0| * |py.getD i 0|

/-- `units_traded = positions.diff().abs().fillna(0)` at index `i`
(`src/helper.py` line 66). -/
def unitsTradedAt (positions : List ℤ) (i : ℕ) : ℚ :=
  if i = 0 then 0
  else |((positions.getD i 0 : ℤ) : ℚ) - ((positions.getD (i - 1) 0 : ℤ) : ℚ)|

/-- `daily_costs = tc * gross_notional * units_traded` at index `i`
(`src/helper.py` line 68). -/
def dailyCostsAt (px py betas : List ℚ) (positions : List ℤ) (tc : ℚ)
    (i : ℕ) : ℚ :=
  tc * grossNotionalAt px py betas i * unitsTradedAt positions i

/-- `strategy_pnl_net = strategy_pnl - daily_costs` at index `i`
(`src/helper.py` line 69). -/
def strategyPnlNetAt (px py alphas betas : List ℚ) (positions : List ℤ)
    (tc : ℚ) (i : ℕ) : ℚ :=
  strategyPnlAt px py alphas betas positions i -
    dailyCostsAt px py betas positions tc i

/-- `daily_return = (strategy_pnl / gross_notional.shift(1))
.replace([inf, -inf], 0).fillna(0)` at index `i` (`src/helper.py`
lines 72-74).  At `i = 0` the shifted divisor is NaN, so the division is
NaN and `fillna` yields 0; a zero divisor gives ±inf (or NaN for 0/0),
replaced by 0; otherwise the quotient is finite. -/
def dailyReturnAt (px py alphas betas : List ℚ) (positions : List ℤ)
    (i : ℕ) : ℚ :=
  if i = 0 then 0
  else if grossNotionalAt px py betas (i - 1) = 0 then 0
  else strategyPnlAt px py alphas betas positions i /
    grossNotionalAt px py betas (i - 1)

/-- `daily_return_net`, as `dailyReturnAt` but from the net P&L
(`src/helper.py` line 75). -/
def dailyReturnNetAt (px py alphas betas : List ℚ) (positions : List ℤ)
    (tc : ℚ) (i : ℕ) : ℚ :=
  if i = 0 then 0
  else if grossNotionalAt px py betas (i - 1) = 0 then 0
  else strategyPnlNetAt px py alphas betas positions tc i /
    grossNotionalAt px py betas (i - 1)

/-- Materialize a pointwise series over indices `0, …, n-1`. -/
def seriesOf (n : ℕ) (f : ℕ → ℚ) : List ℚ := (List.range n).map f

/-- `.cumsum()` with a running accumulator. -/
def cumsumFrom (acc : ℚ) : List ℚ → List ℚ
  | [] => []
  | x :: rest => (acc + x) :: cumsumFrom (acc + x) rest

/-- `.cumprod()` with a running accumulator. -/
def cumprodFrom (acc : ℚ) : List ℚ → List ℚ
  | [] => []
  | x :: rest => (acc * x) :: cumprodFrom (acc * x) rest

/-- The series bundle returned by `calculate_returns` (`src/helper.py`
lines 91-107), without the two irrational-valued Sharpe scalars, which
are exposed separately as `calcSharpe` / `calcSharpeNet`. -/
structure ReturnsResult where
  strategy_pnl : List ℚ
  strategy_pnl_net : List ℚ
  cum_pnl : List ℚ
  cum_pnl_net : List ℚ
  daily_return : List ℚ
  daily_return_net : List ℚ
  cum_returns : List ℚ
  cum_returns_net : List ℚ
  positions : List ℤ
deriving Repr, DecidableEq

/-- `calculate_returns(px, py, positions, betas, tc, alphas=None)`
(`src/helper.py` lines 53-107), series outputs. -/
def calculate_returns (px py : List ℚ) (positions : List ℤ)
    (betas : List ℚ) (tc : ℚ) (alphas : Option (List ℚ) := none) :
    ReturnsResult :=
  let n := px.length
  let al := alphasOr n alphas
  let pnl := seriesOf n (strategyPnlAt px py al betas positions)
  let pnlNet := seriesOf n (strategyPnlNetAt px py al betas positions tc)
  let ret := seriesOf n (dailyReturnAt px py al betas positions)
  let retNet := seriesOf n (dailyReturnNetAt px py al betas positions tc)
  { strategy_pnl := pnl
    strategy_pnl_net := pnlNet
    cum_pnl := cumsumFrom 0 pnl
    cum_pnl_net := cumsumFrom 0 pnlNet
    daily_return := ret
    daily_return_net := retNet
    cum_returns := (cumprodFrom 1 (ret.map (1 + ·))).map (· - 1)
    cum_returns_net := (cumprodFrom 1 (retNet.map (1 + ·))).map (· - 1)
    positions := positions }

/-- `mean / std * sqrt(252)` guarded by `if std() > 0` (`src/helper.py`
lines 84-88).  pandas `.std()` is NaN for length < 2 and `NaN > 0` is
false, so the guard holds exactly when the length is ≥ 2 and the sample
variance is positive; otherwise the initial value `0.0` is kept. -/
noncomputable def annualizedSharpe (r : List ℚ) : ℝ :=
  if 2 ≤ r.length ∧ 0 < sampleVar r then
    (listMean r : ℝ) / sampleStd r * Real.sqrt 252
  else 0

/-- The `sharpe` scalar of the `calculate_returns` output
(`src/helper.py` lines 84-86, 103). -/
noncomputable def calcSharpe (px py : List ℚ) (positions : List ℤ)
    (betas : List ℚ) (tc : ℚ) (alphas : Option (List ℚ) := none) : ℝ :=
  annualizedSharpe
    (calculate_returns px py positions betas tc alphas).daily_return

/-- The `sharpe_net` scalar of the `calculate_returns` output
(`src/helper.py` lines 87-88, 104). -/
noncomputable def calcSharpeNet (px py : List ℚ) (positions : List ℤ)
    (betas : List ℚ) (tc : ℚ) (alphas : Option (List ℚ) := none) : ℝ :=
  annualizedSharpe
    (calculate_returns px py positions betas tc alphas).daily_return_net

/-- `px.iloc[i - window:i]`: the trailing slice of length `window` ending
just before `i` (`src/helper.py` line 113). -/
def sliceAt (l : List ℚ) (i window : ℕ) : List ℚ :=
  (l.drop (i - window)).take window

/-- One iteration of the `fit_rolling_params` loop (`src/helper.py`
lines 112-125) at timestamp `i`: the fitted `(alpha, beta)` from the
injected `ols`, the slice spread's mean and sample std, and the coint
p-value with the `try/except` fallback `pval = 1`. -/
noncomputable def fitRow (ols : List ℚ → List ℚ → ℚ × ℚ)
    (cointTest : List ℚ → List ℚ → Option ℚ) (px py : List ℚ)
    (window i : ℕ) : ℚ × ℚ × ℚ × ℝ × ℚ :=
  let X := sliceAt px i window
  let Y := sliceAt py i window
  let ab := ols X Y
  let spread := X.zipWith (fun x y => x - (ab.1 + ab.2 * y)) Y
  (ab.1, ab.2, listMean spread, sampleStd spread,
    (cointTest X Y).getD 1)

/-- `fit_rolling_params(px, py, window)` (`src/helper.py` lines 109-127):
loop `i` over `range(window, len(px))`, one appended element per series
per iteration, and every output re-indexed by `idx[window:]`. -/
noncomputable def fit_rolling_params (ols : List ℚ → List ℚ → ℚ × ℚ)
    (cointTest : List ℚ → List ℚ → Option ℚ) (px py : Series ℚ)
    (window : ℕ) :
    Series ℚ × Series ℚ × Series ℚ × Series ℝ × Series ℚ :=
  let n := px.values.length
  let rows := (List.range (n - window)).map
    (fun j => fitRow ols cointTest px.values py.values window (window + j))
  let idx := px.index.drop window
  (⟨idx, rows.map (·.1)⟩,
   ⟨idx, rows.map (·.2.1)⟩,
   ⟨idx, rows.map (·.2.2.1)⟩,
   ⟨idx, rows.map (·.2.2.2.1)⟩,
   ⟨idx, rows.map (·.2.2.2.2)⟩)

/-! ## Helper lemmas -/

lemma genStep_eq_specStep (e x st : ℚ) (s : PosState) (z : EFloat) :
    genStep e x st s.toInt z = (specStep e x st s z).toInt := by
  cases s <;>
    simp only [PosState.toInt, genStep, specStep] <;>
    split_ifs <;> simp_all [PosState.toInt]

lemma genPositionsAux_eq_specRun (e x st : ℚ) (s : PosState)
    (l : List EFloat) :
    genPositionsAux e x st s.toInt l
      = (specRun e x st s l).map PosState.toInt := by
  induction l generalizing s with
  | nil => rfl
  | cons z rest ih =>
      simp only [genPositionsAux, specRun, List.map_cons,
        genStep_eq_specStep]
      exact congrArg _ (ih _)

lemma genPositionsAux_length (e x st : ℚ) (s : ℤ) (l : List EFloat) :
    (genPositionsAux e x st s l).length = l.length := by
  induction l generalizing s with
  | nil => rfl
  | cons z rest ih => simp [genPositionsAux, ih]

lemma genStep_mem (e x st : ℚ) (s : ℤ) (z : EFloat) :
    genStep e x st s z = -1 ∨ genStep e x st s z = 0 ∨
      genStep e x st s z = 1 := by
  unfold genStep
  split_ifs <;> simp

lemma genPositionsAux_mem (e x st : ℚ) (s : ℤ) (l : List EFloat) :
    ∀ p ∈ genPositionsAux e x st s l, p = -1 ∨ p = 0 ∨ p = 1 := by
  induction l generalizing s with
  | nil => intro p hp; cases hp
  | cons z rest ih =>
      intro p hp
      simp only [genPositionsAux, List.mem_cons] at hp
      rcases hp with h | h
      · rw [h]; exact genStep_mem e x st s z
      · exact ih _ p h

lemma genPositionsAux_step (e x st : ℚ) (s : ℤ) (l : List EFloat) :
    ∀ t, t + 1 < l.length →
      (genPositionsAux e x st s l).getD (t + 1) 0
        = genStep e x st ((genPositionsAux e x st s l).getD t 0)
            (l.getD (t + 1) .nan) := by
  induction l generalizing s with
  | nil => intro t ht; simp at ht
  | cons z rest ih =>
      intro t ht
      cases rest with
      | nil => simp at ht
      | cons z' rest' =>
          cases t with
          | zero => simp [genPositionsAux]
          | succ t' =>
              have h := ih (genStep e x st s z) t' (by simpa using ht)
              simpa [genPositionsAux] using h

lemma genStep_adj (e x st : ℚ) (s : ℤ) (hs : s = -1 ∨ s = 0 ∨ s = 1)
    (z : EFloat) : |genStep e x st s z - s| ≤ 1 := by
  rcases hs with h | h | h <;> subst h <;> unfold genStep <;>
    split_ifs <;> simp_all

/-! ## Claim theorems: the position state machine -/

/-- C1: for every z-score sequence and scalars with `entryThreshold > 0`,
`0 ≤ exitThreshold < entryThreshold` and `stopZ > entryThreshold`,
`generate_positions` computes exactly the run of the spec's state machine
(initial state Flat, conditions checked in order), the emitted position at
each step being the new state. -/
theorem generate_positions_matches_spec_machine
    (zscore : Series EFloat) (entry_threshold exit_threshold stop_z : ℚ)
    (hentry : 0 < entry_threshold)
    (hexit0 : 0 ≤ exit_threshold)
    (hexit : exit_threshold < entry_threshold)
    (hstop : entry_threshold < stop_z) :
    (generate_positions zscore entry_threshold exit_threshold stop_z).values
      = (specRun entry_threshold exit_threshold stop_z .flat
          zscore.values).map PosState.toInt := by
  have h := genPositionsAux_eq_specRun entry_threshold exit_threshold
    stop_z .flat zscore.values
  simpa [generate_positions, PosState.toInt] using h

/-- Witness for C1: the spec's concrete scenario
`z = [0, 2.5, 2.6, 0.4, -0.1]`, `entry = 2`, `exit = 0.5`, `stop = 3`. -/
theorem generate_positions_matches_spec_machine_witness :
    (generate_positions
        ⟨[0, 1, 2, 3, 4],
         [.fin 0, .fin (5/2), .fin (13/5), .fin (2/5), .fin (-1/10)]⟩
        2 1 3).values
      = (specRun 2 1 3 .flat
          [.fin 0, .fin (5/2), .fin (13/5), .fin (2/5),
           .fin (-1/10)]).map PosState.toInt :=
  generate_positions_matches_spec_machine _ _ _ _
    (by decide) (by decide) (by decide) (by decide)

/-- C9: for every z-score sequence and valid thresholds, every emitted
position is in {-1, 0, 1}, and the output series has the same length and
the same index as the input. -/
theorem generate_positions_range_and_alignment
    (zscore : Series EFloat) (entry_threshold exit_threshold stop_z : ℚ)
    (hentry : 0 < entry_threshold)
    (hexit0 : 0 ≤ exit_threshold)
    (hexit : exit_threshold < entry_threshold)
    (hstop : entry_threshold < stop_z) :
    (∀ p ∈ (generate_positions zscore entry_threshold exit_threshold
        stop_z).values, p = -1 ∨ p = 0 ∨ p = 1) ∧
    (generate_positions zscore entry_threshold exit_threshold
        stop_z).values.length = zscore.values.length ∧
    (generate_positions zscore entry_threshold exit_threshold
        stop_z).index = zscore.index :=
  ⟨genPositionsAux_mem _ _ _ _ _,
   genPositionsAux_length _ _ _ _ _, rfl⟩

/-- Witness for C9 at the spec's concrete scenario. -/
theorem generate_positions_range_and_alignment_witness :
    (∀ p ∈ (generate_positions
        ⟨[0, 1, 2, 3, 4],
         [.fin 0, .fin (5/2), .fin (13/5), .fin (2/5), .fin (-1/10)]⟩
        2 1 3).values, p = -1 ∨ p = 0 ∨ p = 1) ∧
    (generate_positions
        ⟨[0, 1, 2, 3, 4],
         [.fin 0, .fin (5/2), .fin (13/5), .fin (2/5), .fin (-1/10)]⟩
        2 1 3).values.length = 5 ∧
    (generate_positions
        ⟨[0, 1, 2, 3, 4],
         [.fin 0, .fin (5/2), .fin (13/5), .fin (2/5), .fin (-1/10)]⟩
        2 1 3).index = [0, 1, 2, 3, 4] :=
  generate_positions_range_and_alignment _ _ _ _
    (by decide) (by decide) (by decide) (by decide)

/-- C10: with valid thresholds the machine never moves directly between
Long (+1) and Short (-1): consecutive positions differ by at most 1, so
the turnover value 2 (full reversal) never occurs for machine-generated
positions. -/
theorem generate_positions_no_direct_flip
    (zscore : Series EFloat) (entry_threshold exit_threshold stop_z : ℚ)
    (hentry : 0 < entry_threshold)
    (hexit0 : 0 ≤ exit_threshold)
    (hexit : exit_threshold < entry_threshold)
    (hstop : entry_threshold < stop_z) :
    ∀ t, t + 1 < (generate_positions zscore entry_threshold exit_threshold
        stop_z).values.length →
      |(generate_positions zscore entry_threshold exit_threshold
          stop_z).values.getD (t + 1) 0 -
        (generate_positions zscore entry_threshold exit_threshold
          stop_z).values.getD t 0| ≤ 1 ∧
      ¬((generate_positions zscore entry_threshold exit_threshold
          stop_z).values.getD t 0 = 1 ∧
        (generate_positions zscore entry_threshold exit_threshold
          stop_z).values.getD (t + 1) 0 = -1) ∧
      ¬((generate_positions zscore entry_threshold exit_threshold
          stop_z).values.getD t 0 = -1 ∧
        (generate_positions zscore entry_threshold exit_threshold
          stop_z).values.getD (t + 1) 0 = 1) := by
  intro t ht
  simp only [generate_positions] at ht ⊢
  set out := genPositionsAux entry_threshold exit_threshold stop_z 0
    zscore.values with hout
  have hlen : out.length = zscore.values.length :=
    genPositionsAux_length _ _ _ _ _
  have htlen : t + 1 < zscore.values.length := by omega
  have hstep := genPositionsAux_step entry_threshold exit_threshold stop_z
    0 zscore.values t htlen
  have htout : t < out.length := by omega
  have hmem : out.getD t 0 ∈ out := by
    rw [List.getD_eq_getElem _ _ htout]; exact List.getElem_mem htout
  have hrange := genPositionsAux_mem entry_threshold exit_threshold stop_z
    0 zscore.values _ hmem
  rw [← hout] at hstep
  have hadj : |out.getD (t + 1) 0 - out.getD t 0| ≤ 1 := by
    rw [hstep]
    exact genStep_adj _ _ _ _ hrange _
  refine ⟨hadj, ?_, ?_⟩ <;> rintro ⟨h1, h2⟩ <;> rw [h1, h2] at hadj <;>
    norm_num at hadj

/-- Witness for C10 at the spec's concrete scenario, at `t = 1`. -/
theorem generate_positions_no_direct_flip_witness :
    |(generate_positions
        ⟨[0, 1, 2, 3, 4],
         [.fin 0, .fin (5/2), .fin (13/5), .fin (2/5), .fin (-1/10)]⟩
        2 1 3).values.getD 2 0 -
      (generate_positions
        ⟨[0, 1, 2, 3, 4],
         [.fin 0, .fin (5/2), .fin (13/5), .fin (2/5), .fin (-1/10)]⟩
        2 1 3).values.getD 1 0| ≤ 1 ∧
    ¬((generate_positions
        ⟨[0, 1, 2, 3, 4],
         [.fin 0, .fin (5/2), .fin (13/5), .fin (2/5), .fin (-1/10)]⟩
        2 1 3).values.getD 1 0 = 1 ∧
      (generate_positions
        ⟨[0, 1, 2, 3, 4],
         [.fin 0, .fin (5/2), .fin (13/5), .fin (2/5), .fin (-1/10)]⟩
        2 1 3).values.getD 2 0 = -1) ∧
    ¬((generate_positions
        ⟨[0, 1, 2, 3, 4],
         [.fin 0, .fin (5/2), .fin (13/5), .fin (2/5), .fin (-1/10)]⟩
        2 1 3).values.getD 1 0 = -1 ∧
      (generate_positions
        ⟨[0, 1, 2, 3, 4],
         [.fin 0, .fin (5/2), .fin (13/5), .fin (2/5), .fin (-1/10)]⟩
        2 1 3).values.getD 2 0 = 1) :=
  generate_positions_no_direct_flip _ _ _ _
    (by decide) (by decide) (by decide) (by decide) 1
    (by simp [generate_positions, genPositionsAux_length])

/-- C2 counterexample: at `z = +inf` the machine does not keep its state —
from Flat (with `entry = 2`, `exit = 1`, `stop = 3`) it enters Short,
because `inf > entry_threshold` is true in IEEE comparison. -/
theorem generate_positions_inf_counterexample :
    (generate_positions ⟨[0], [EFloat.inf]⟩ 2 1 3).values = [-1] ∧
    ((-1 : ℤ) = 0 → False) := by
  refine ⟨rfl, by decide⟩

/-- C2 amended: for a NaN z-score the machine keeps its current state
(Flat stays Flat, Long stays Long, Short stays Short), and the loop is
total — it consumes any `EFloat` input, one output per input. -/
theorem generate_positions_nan_holds_state
    (entry_threshold exit_threshold stop_z : ℚ) (s : ℤ)
    (hs : s = -1 ∨ s = 0 ∨ s = 1) :
    genStep entry_threshold exit_threshold stop_z s EFloat.nan = s ∧
    ∀ zs : List EFloat,
      (genPositionsAux entry_threshold exit_threshold stop_z s zs).length
        = zs.length := by
  refine ⟨?_, fun zs => genPositionsAux_length _ _ _ _ _⟩
  rcases hs with h | h | h <;> subst h <;> rfl

/-- Witness for C2 (amended) with the Long state and `entry = 2`,
`exit = 1`, `stop = 3`. -/
theorem generate_positions_nan_holds_state_witness :
    genStep 2 1 3 1 EFloat.nan = 1 ∧
    ∀ zs : List EFloat, (genPositionsAux 2 1 3 1 zs).length = zs.length :=
  generate_positions_nan_holds_state 2 1 3 1 (by decide)

/-- C3 counterexample: no operation fails fast on a precondition
violation.  `generate_positions` with `exit_threshold = 2 ≥ 1 =
entry_threshold` still returns a position sequence, and
`fit_rolling_params` with `window = 5 ≥ 3 = len(px)` returns five empty
series instead of raising a validation error. -/
theorem operations_return_results_counterexample :
    (generate_positions ⟨[0], [EFloat.fin 2]⟩ 1 2 3).values = [-1] ∧
    (fit_rolling_params (fun _ _ => (0, 0)) (fun _ _ => none)
        ⟨[0, 1, 2], [1, 2, 3]⟩ ⟨[0, 1, 2], [1, 2, 3]⟩ 5).1.values = [] ∧
    (fit_rolling_params (fun _ _ => (0, 0)) (fun _ _ => none)
        ⟨[0, 1, 2], [1, 2, 3]⟩ ⟨[0, 1, 2], [1, 2, 3]⟩ 5).2.1.values = [] ∧
    (fit_rolling_params (fun _ _ => (0, 0)) (fun _ _ => none)
        ⟨[0, 1, 2], [1, 2, 3]⟩ ⟨[0, 1, 2], [1, 2, 3]⟩ 5).2.2.1.values = [] ∧
    (fit_rolling_params (fun _ _ => (0, 0)) (fun _ _ => none)
        ⟨[0, 1, 2], [1, 2, 3]⟩ ⟨[0, 1, 2], [1, 2, 3]⟩ 5).2.2.2.1.values
      = [] ∧
    (fit_rolling_params (fun _ _ => (0, 0)) (fun _ _ => none)
        ⟨[0, 1, 2], [1, 2, 3]⟩ ⟨[0, 1, 2], [1, 2, 3]⟩ 5).2.2.2.2.values
      = [] := by
  exact ⟨rfl, rfl, rfl, rfl, rfl, rfl⟩

/-- C3 amended: the public operations perform no precondition validation.
With a malformed threshold pair (`exit_threshold ≥ entry_threshold`)
`generate_positions` still returns a full-length position sequence, and
with `window ≥ len(px)` `fit_rolling_params` returns five empty series;
no validation error is raised. -/
theorem operations_do_not_validate
    (zscore : Series EFloat) (entry_threshold exit_threshold stop_z : ℚ)
    (hmal : entry_threshold ≤ exit_threshold)
    (ols : List ℚ → List ℚ → ℚ × ℚ)
    (cointTest : List ℚ → List ℚ → Option ℚ)
    (px py : Series ℚ) (window : ℕ)
    (hw : px.values.length ≤ window) :
    (generate_positions zscore entry_threshold exit_threshold
        stop_z).values.length = zscore.values.length ∧
    (fit_rolling_params ols cointTest px py window).1.values = [] ∧
    (fit_rolling_params ols cointTest px py window).2.1.values = [] ∧
    (fit_rolling_params ols cointTest px py window).2.2.1.values = [] ∧
    (fit_rolling_params ols cointTest px py window).2.2.2.1.values = [] ∧
    (fit_rolling_params ols cointTest px py window).2.2.2.2.values = [] := by
  have hz : px.values.length - window = 0 := Nat.sub_eq_zero_of_le hw
  refine ⟨genPositionsAux_length _ _ _ _ _, ?_, ?_, ?_, ?_, ?_⟩ <;>
    simp [fit_rolling_params, hz]

/-- Witness for C3 (amended): `exit = 2 > 1 = entry`, `window = 5` on
length-3 inputs. -/
theorem operations_do_not_validate_witness :
    (generate_positions ⟨[0], [EFloat.fin 2]⟩ 1 2 3).values.length = 1 ∧
    (fit_rolling_params (fun _ _ => (0, 0)) (fun _ _ => none)
        ⟨[0, 1, 2], [1, 2, 3]⟩ ⟨[0, 1, 2], [1, 2, 3]⟩ 5).1.values = [] ∧
    (fit_rolling_params (fun _ _ => (0, 0)) (fun _ _ => none)
        ⟨[0, 1, 2], [1, 2, 3]⟩ ⟨[0, 1, 2], [1, 2, 3]⟩ 5).2.1.values = [] ∧
    (fit_rolling_params (fun _ _ => (0, 0)) (fun _ _ => none)
        ⟨[0, 1, 2], [1, 2, 3]⟩ ⟨[0, 1, 2], [1, 2, 3]⟩ 5).2.2.1.values = [] ∧
    (fit_rolling_params (fun _ _ => (0, 0)) (fun _ _ => none)
        ⟨[0, 1, 2], [1, 2, 3]⟩ ⟨[0, 1, 2], [1, 2, 3]⟩ 5).2.2.2.1.values
      = [] ∧
    (fit_rolling_params (fun _ _ => (0, 0)) (fun _ _ => none)
        ⟨[0, 1, 2], [1, 2, 3]⟩ ⟨[0, 1, 2], [1, 2, 3]⟩ 5).2.2.2.2.values
      = [] :=
  operations_do_not_validate ⟨[0], [EFloat.fin 2]⟩ 1 2 3 (by decide)
    (fun _ _ => (0, 0)) (fun _ _ => none)
    ⟨[0, 1, 2], [1, 2, 3]⟩ ⟨[0, 1, 2], [1, 2, 3]⟩ 5 (by decide)

lemma seriesOf_getD (n : ℕ) (f : ℕ → ℚ) (t : ℕ) (h : t < n) :
    (seriesOf n f).getD t 0 = f t := by
  have hlen : (seriesOf n f).length = n := by simp [seriesOf]
  rw [List.getD_eq_getElem _ _ (by omega)]
  simp [seriesOf]

lemma calculate_returns_strategy_pnl_def (px py : List ℚ)
    (positions : List ℤ) (betas : List ℚ) (tc : ℚ)
    (alphas : Option (List ℚ)) :
    (calculate_returns px py positions betas tc alphas).strategy_pnl
      = seriesOf px.length
          (strategyPnlAt px py (alphasOr px.length alphas) betas
            positions) := rfl

lemma calculate_returns_daily_return_def (px py : List ℚ)
    (positions : List ℤ) (betas : List ℚ) (tc : ℚ)
    (alphas : Option (List ℚ)) :
    (calculate_returns px py positions betas tc alphas).daily_return
      = seriesOf px.length
          (dailyReturnAt px py (alphasOr px.length alphas) betas
            positions) := rfl

lemma calculate_returns_daily_return_net_def (px py : List ℚ)
    (positions : List ℤ) (betas : List ℚ) (tc : ℚ)
    (alphas : Option (List ℚ)) :
    (calculate_returns px py positions betas tc alphas).daily_return_net
      = seriesOf px.length
          (dailyReturnNetAt px py (alphasOr px.length alphas) betas
            positions tc) := rfl

/-! ## Claim theorems: the returns calculator -/

/-- C5: for every period `t ≥ 1` the gross dollar P&L equals the position
decided at `t - 1` times the spread change `spread[t] - spread[t-1]`
(with `spread = px - (alphas + betas * py)`); at the very first period
the lagged position and the spread change are both zero, so the first
gross P&L is zero. -/
theorem calculate_returns_pnl_lagged
    (px py : List ℚ) (positions : List ℤ) (betas : List ℚ) (tc : ℚ)
    (alphas : Option (List ℚ)) (t : ℕ) (ht : t < px.length) :
    (1 ≤ t →
      (calculate_returns px py positions betas tc
          alphas).strategy_pnl.getD t 0
        = ((positions.getD (t - 1) 0 : ℤ) : ℚ) *
          (spreadAt px py (alphasOr px.length alphas) betas t -
           spreadAt px py (alphasOr px.length alphas) betas (t - 1))) ∧
    (t = 0 →
      (calculate_returns px py positions betas tc
          alphas).strategy_pnl.getD 0 0 = 0 ∧
      posLagAt positions 0 = 0 ∧
      spreadChangeAt px py (alphasOr px.length alphas) betas 0 = 0) := by
  rw [calculate_returns_strategy_pnl_def]
  constructor
  · intro h1
    rw [seriesOf_getD _ _ _ ht]
    have ht0 : t ≠ 0 := by omega
    simp [strategyPnlAt, posLagAt, spreadChangeAt, ht0]
  · intro h0
    subst h0
    refine ⟨?_, rfl, rfl⟩
    rw [seriesOf_getD _ _ _ ht]
    simp [strategyPnlAt, posLagAt]

/-- Witness for C5 at the spec's concrete returns scenario
(`px = [100, 101]`, `py = [50, 50]`, `betas = [1, 1]`,
`alphas = [0, 0]`, `positions = [0, 1]`, `tc = 1/1000`), at `t = 1`. -/
theorem calculate_returns_pnl_lagged_witness :
    (1 ≤ 1 →
      (calculate_returns [100, 101] [50, 50] [0, 1] [1, 1] (1/1000)
          (some [0, 0])).strategy_pnl.getD 1 0
        = ((([0, 1] : List ℤ).getD 0 0 : ℤ) : ℚ) *
          (spreadAt [100, 101] [50, 50]
            (alphasOr (List.length [100, 101]) (some [0, 0])) [1, 1] 1 -
           spreadAt [100, 101] [50, 50]
            (alphasOr (List.length [100, 101]) (some [0, 0])) [1, 1] 0)) ∧
    ((1 : ℕ) = 0 →
      (calculate_returns [100, 101] [50, 50] [0, 1] [1, 1] (1/1000)
          (some [0, 0])).strategy_pnl.getD 0 0 = 0 ∧
      posLagAt [0, 1] 0 = 0 ∧
      spreadChangeAt [100, 101] [50, 50]
        (alphasOr (List.length [100, 101]) (some [0, 0])) [1, 1] 0 = 0) :=
  calculate_returns_pnl_lagged [100, 101] [50, 50] [0, 1] [1, 1] (1/1000)
    (some [0, 0]) 1 (by decide)

/-- C6: wherever the one-period-lagged gross notional is zero — or the
division is not defined at all, which in the code is the first period,
whose shifted divisor is missing — both the gross and the net percentage
returns are exactly 0. -/
theorem calculate_returns_zero_lagged_notional
    (px py : List ℚ) (positions : List ℤ) (betas : List ℚ) (tc : ℚ)
    (alphas : Option (List ℚ)) (t : ℕ) (ht : t < px.length)
    (h : t = 0 ∨ grossNotionalAt px py betas (t - 1) = 0) :
    (calculate_returns px py positions betas tc
        alphas).daily_return.getD t 0 = 0 ∧
    (calculate_returns px py positions betas tc
        alphas).daily_return_net.getD t 0 = 0 := by
  rw [calculate_returns_daily_return_def,
    calculate_returns_daily_return_net_def, seriesOf_getD _ _ _ ht,
    seriesOf_getD _ _ _ ht]
  rcases h with h | h
  · subst h
    exact ⟨rfl, rfl⟩
  · constructor <;> simp [dailyReturnAt, dailyReturnNetAt, h]

/-- Witness for C6: `px[0] = 0, py[0] = 0` makes the lagged gross
notional of period 1 zero, so both period-1 returns are 0. -/
theorem calculate_returns_zero_lagged_notional_witness :
    (calculate_returns [0, 7] [0, 3] [1, 1] [2, 2] (1/1000)
        none).daily_return.getD 1 0 = 0 ∧
    (calculate_returns [0, 7] [0, 3] [1, 1] [2, 2] (1/1000)
        none).daily_return_net.getD 1 0 = 0 :=
  calculate_returns_zero_lagged_notional [0, 7] [0, 3] [1, 1] [2, 2]
    (1/1000) none 1 (by decide)
    (Or.inr (by norm_num [grossNotionalAt]))

lemma sampleVar_nonneg (l : List ℚ) : 0 ≤ sampleVar l := by
  unfold sampleVar
  split
  · exact le_refl 0
  · next h =>
      apply div_nonneg
      · apply List.sum_nonneg
        intro x hx
        obtain ⟨a, _, rfl⟩ := List.mem_map.mp hx
        positivity
      · have h2 : 2 ≤ l.length := by omega
        have h2q : (2 : ℚ) ≤ (l.length : ℚ) := by exact_mod_cast h2
        linarith

lemma sampleStd_pos_iff (l : List ℚ) :
    0 < sampleStd l ↔ 0 < sampleVar l := by
  unfold sampleStd
  rw [Real.sqrt_pos]
  constructor <;> intro h <;> exact_mod_cast h

lemma sampleVar_eq_zero_of_std_eq_zero (l : List ℚ)
    (h : sampleStd l = 0) : sampleVar l = 0 := by
  unfold sampleStd at h
  have h3 : ((sampleVar l : ℚ) : ℝ) ≤ 0 := Real.sqrt_eq_zero'.mp h
  have h4 : sampleVar l ≤ 0 := by exact_mod_cast h3
  exact le_antisymm h4 (sampleVar_nonneg l)

lemma sampleVar_of_short (l : List ℚ) (h : l.length ≤ 1) :
    sampleVar l = 0 := by
  unfold sampleVar
  rw [if_pos h]

lemma annualizedSharpe_cases (r : List ℚ) :
    (0 < sampleStd r →
      annualizedSharpe r
        = (listMean r : ℝ) / sampleStd r * Real.sqrt 252) ∧
    (sampleStd r = 0 → annualizedSharpe r = 0) := by
  constructor
  · intro h
    have hv : 0 < sampleVar r := (sampleStd_pos_iff r).mp h
    have hlen : 2 ≤ r.length := by
      by_contra hc
      push_neg at hc
      rw [sampleVar_of_short r (by omega)] at hv
      exact lt_irrefl 0 hv
    unfold annualizedSharpe
    rw [if_pos ⟨hlen, hv⟩]
  · intro h
    have hv : sampleVar r = 0 := sampleVar_eq_zero_of_std_eq_zero r h
    unfold annualizedSharpe
    rw [if_neg]
    rintro ⟨-, hpos⟩
    rw [hv] at hpos
    exact lt_irrefl 0 hpos

/-- C8: the annualized Sharpe ratio equals
`mean(periodReturn) / std(periodReturn) * sqrt(252)` whenever the
period-return standard deviation is positive, and is exactly 0 when the
standard deviation is zero, for both the gross and the net return
series. -/
theorem calculate_returns_sharpe_formula
    (px py : List ℚ) (positions : List ℤ) (betas : List ℚ) (tc : ℚ)
    (alphas : Option (List ℚ)) :
    (0 < sampleStd ((calculate_returns px py positions betas tc
          alphas).daily_return) →
      calcSharpe px py positions betas tc alphas
        = (listMean ((calculate_returns px py positions betas tc
              alphas).daily_return) : ℝ) /
            sampleStd ((calculate_returns px py positions betas tc
              alphas).daily_return) * Real.sqrt 252) ∧
    (sampleStd ((calculate_returns px py positions betas tc
          alphas).daily_return) = 0 →
      calcSharpe px py positions betas tc alphas = 0) ∧
    (0 < sampleStd ((calculate_returns px py positions betas tc
          alphas).daily_return_net) →
      calcSharpeNet px py positions betas tc alphas
        = (listMean ((calculate_returns px py positions betas tc
              alphas).daily_return_net) : ℝ) /
            sampleStd ((calculate_returns px py positions betas tc
              alphas).daily_return_net) * Real.sqrt 252) ∧
    (sampleStd ((calculate_returns px py positions betas tc
          alphas).daily_return_net) = 0 →
      calcSharpeNet px py positions betas tc alphas = 0) :=
  ⟨(annualizedSharpe_cases _).1, (annualizedSharpe_cases _).2,
   (annualizedSharpe_cases _).1, (annualizedSharpe_cases _).2⟩

/-- Witness for C8: an all-flat position sequence has zero-variance
returns, and both Sharpe ratios are exactly 0. -/
theorem calculate_returns_sharpe_formula_witness :
    calcSharpe [1, 2] [0, 0] [0, 0] [0, 0] 0 none = 0 ∧
    calcSharpeNet [1, 2] [0, 0] [0, 0] [0, 0] 0 none = 0 := by
  have h := calculate_returns_sharpe_formula [1, 2] [0, 0] [0, 0] [0, 0]
    0 none
  have hdr : (calculate_returns [1, 2] [0, 0] [0, 0] [0, 0] 0
      none).daily_return = [0, 0] := by
    rw [calculate_returns_daily_return_def]
    norm_num [seriesOf, List.range_succ, dailyReturnAt, grossNotionalAt,
      strategyPnlAt, posLagAt, spreadChangeAt, spreadAt, alphasOr,
      List.getD_cons_zero, List.getD_cons_succ]
  have hdrn : (calculate_returns [1, 2] [0, 0] [0, 0] [0, 0] 0
      none).daily_return_net = [0, 0] := by
    rw [calculate_returns_daily_return_net_def]
    norm_num [seriesOf, List.range_succ, dailyReturnNetAt,
      grossNotionalAt, strategyPnlNetAt, strategyPnlAt, dailyCostsAt,
      unitsTradedAt, posLagAt, spreadChangeAt, spreadAt, alphasOr,
      List.getD_cons_zero, List.getD_cons_succ]
  have hstd : sampleStd ([0, 0] : List ℚ) = 0 := by
    have hv : sampleVar ([0, 0] : List ℚ) = 0 := by
      norm_num [sampleVar, listMean]
    unfold sampleStd
    rw [hv]
    norm_num [Real.sqrt_zero]
  exact ⟨h.2.1 (by rw [hdr]; exact hstd), h.2.2.2 (by rw [hdrn]; exact hstd)⟩

lemma fit_rolling_params_row_getD (ols : List ℚ → List ℚ → ℚ × ℚ)
    (cointTest : List ℚ → List ℚ → Option ℚ) (px py : Series ℚ)
    (window j : ℕ) (hj : j < px.values.length - window) :
    (fit_rolling_params ols cointTest px py window).1.values.getD j 0
        = (fitRow ols cointTest px.values py.values window
            (window + j)).1 ∧
    (fit_rolling_params ols cointTest px py window).2.1.values.getD j 0
        = (fitRow ols cointTest px.values py.values window
            (window + j)).2.1 ∧
    (fit_rolling_params ols cointTest px py window).2.2.1.values.getD j 0
        = (fitRow ols cointTest px.values py.values window
            (window + j)).2.2.1 ∧
    (fit_rolling_params ols cointTest px py
        window).2.2.2.1.values.getD j 0
        = (fitRow ols cointTest px.values py.values window
            (window + j)).2.2.2.1 ∧
    (fit_rolling_params ols cointTest px py
        window).2.2.2.2.values.getD j 0
        = (fitRow ols cointTest px.values py.values window
            (window + j)).2.2.2.2 := by
  refine ⟨?_, ?_, ?_, ?_, ?_⟩ <;>
  · simp only [fit_rolling_params]
    rw [List.getD_eq_getElem _ _ (by simpa using hj)]
    simp

/-! ## Claim theorems: the rolling parameter estimator -/

/-- C4: for aligned inputs the five outputs each have length
`len(px) - window` and share first index `px.index[window]`; the
estimate at output position `j` (timestamp `window + j`) is exactly the
row computed from the trailing slices `px[i-window:i]`, `py[i-window:i]`
— which never reach timestamp `i` itself — and `window ≥ len(px)` yields
five empty outputs. -/
theorem fit_rolling_params_shape (ols : List ℚ → List ℚ → ℚ × ℚ)
    (cointTest : List ℚ → List ℚ → Option ℚ) (px py : Series ℚ)
    (window : ℕ) (hidx : px.index = py.index)
    (hlen : px.values.length = py.values.length) :
    ((fit_rolling_params ols cointTest px py window).1.values.length
        = px.values.length - window ∧
     (fit_rolling_params ols cointTest px py window).2.1.values.length
        = px.values.length - window ∧
     (fit_rolling_params ols cointTest px py window).2.2.1.values.length
        = px.values.length - window ∧
     (fit_rolling_params ols cointTest px py
        window).2.2.2.1.values.length = px.values.length - window ∧
     (fit_rolling_params ols cointTest px py
        window).2.2.2.2.values.length = px.values.length - window) ∧
    ((fit_rolling_params ols cointTest px py window).1.index.head?
        = px.index[window]?) ∧
    (∀ j, j < px.values.length - window →
      (fit_rolling_params ols cointTest px py window).1.values.getD j 0
          = (fitRow ols cointTest px.values py.values window
              (window + j)).1 ∧
      (fit_rolling_params ols cointTest px py
          window).2.1.values.getD j 0
          = (fitRow ols cointTest px.values py.values window
              (window + j)).2.1 ∧
      (fit_rolling_params ols cointTest px py
          window).2.2.1.values.getD j 0
          = (fitRow ols cointTest px.values py.values window
              (window + j)).2.2.1 ∧
      (fit_rolling_params ols cointTest px py
          window).2.2.2.1.values.getD j 0
          = (fitRow ols cointTest px.values py.values window
              (window + j)).2.2.2.1 ∧
      (fit_rolling_params ols cointTest px py
          window).2.2.2.2.values.getD j 0
          = (fitRow ols cointTest px.values py.values window
              (window + j)).2.2.2.2) ∧
    (∀ (l : List ℚ) (j : ℕ),
      sliceAt l (window + j) window
        = sliceAt (l.take (window + j)) (window + j) window) ∧
    (∀ (px' py' : List ℚ) (i : ℕ),
      sliceAt px.values i window = sliceAt px' i window →
      sliceAt py.values i window = sliceAt py' i window →
      fitRow ols cointTest px.values py.values window i
        = fitRow ols cointTest px' py' window i) ∧
    (px.values.length ≤ window →
      (fit_rolling_params ols cointTest px py window).1.values = [] ∧
      (fit_rolling_params ols cointTest px py window).2.1.values = [] ∧
      (fit_rolling_params ols cointTest px py window).2.2.1.values
        = [] ∧
      (fit_rolling_params ols cointTest px py window).2.2.2.1.values
        = [] ∧
      (fit_rolling_params ols cointTest px py window).2.2.2.2.values
        = []) := by
  refine ⟨?_, ?_, ?_, ?_, ?_, ?_⟩
  · refine ⟨?_, ?_, ?_, ?_, ?_⟩ <;> simp [fit_rolling_params]
  · simp only [fit_rolling_params]
    exact List.head?_drop px.index window
  · intro j hj
    exact fit_rolling_params_row_getD ols cointTest px py window j hj
  · intro l j
    unfold sliceAt
    rw [show window + j - window = j from by omega,
      show window + j = j + window from by omega, ← List.take_drop]
    simp
  · intro px' py' i h1 h2
    simp only [fitRow, h1, h2]
  · intro hw
    have hz : px.values.length - window = 0 := Nat.sub_eq_zero_of_le hw
    refine ⟨?_, ?_, ?_, ?_, ?_⟩ <;> simp [fit_rolling_params, hz]

/-- Witness for C4: concrete three-point series, `window = 1`; the first
output index is the second input index. -/
theorem fit_rolling_params_shape_witness :
    (fit_rolling_params (fun _ _ => ((0 : ℚ), (0 : ℚ)))
        (fun _ _ => none) ⟨[10, 11, 12], [1, 2, 3]⟩
        ⟨[10, 11, 12], [4, 5, 6]⟩ 1).1.index.head? = some 11 := by
  have h := fit_rolling_params_shape (fun _ _ => ((0 : ℚ), (0 : ℚ)))
    (fun _ _ => none) ⟨[10, 11, 12], [1, 2, 3]⟩
    ⟨[10, 11, 12], [4, 5, 6]⟩ 1 rfl rfl
  rw [h.2.1]
  rfl

/-- C7: when the cointegration test cannot be computed for a window, the
failure is absorbed locally — that timestamp's p-value is 1 — and the
other four outputs for the timestamp are still produced (all five
outputs keep their full length). -/
theorem fit_rolling_params_pval_default (ols : List ℚ → List ℚ → ℚ × ℚ)
    (cointTest : List ℚ → List ℚ → Option ℚ) (px py : Series ℚ)
    (window j : ℕ) (hj : j < px.values.length - window)
    (hfail : cointTest (sliceAt px.values (window + j) window)
        (sliceAt py.values (window + j) window) = none) :
    (fit_rolling_params ols cointTest px py
        window).2.2.2.2.values.getD j 0 = 1 ∧
    (fit_rolling_params ols cointTest px py window).1.values.getD j 0
        = (fitRow ols cointTest px.values py.values window
            (window + j)).1 ∧
    (fit_rolling_params ols cointTest px py window).2.1.values.getD j 0
        = (fitRow ols cointTest px.values py.values window
            (window + j)).2.1 ∧
    (fit_rolling_params ols cointTest px py window).2.2.1.values.getD j 0
        = (fitRow ols cointTest px.values py.values window
            (window + j)).2.2.1 ∧
    (fit_rolling_params ols cointTest px py
        window).2.2.2.1.values.getD j 0
        = (fitRow ols cointTest px.values py.values window
            (window + j)).2.2.2.1 ∧
    ((fit_rolling_params ols cointTest px py window).1.values.length
        = px.values.length - window ∧
     (fit_rolling_params ols cointTest px py window).2.1.values.length
        = px.values.length - window ∧
     (fit_rolling_params ols cointTest px py window).2.2.1.values.length
        = px.values.length - window ∧
     (fit_rolling_params ols cointTest px py
        window).2.2.2.1.values.length = px.values.length - window ∧
     (fit_rolling_params ols cointTest px py
        window).2.2.2.2.values.length = px.values.length - window) := by
  have hrow := fit_rolling_params_row_getD ols cointTest px py window j hj
  refine ⟨?_, hrow.1, hrow.2.1, hrow.2.2.1, hrow.2.2.2.1, ?_⟩
  · rw [hrow.2.2.2.2]
    simp only [fitRow, hfail]
    rfl
  · refine ⟨?_, ?_, ?_, ?_, ?_⟩ <;> simp [fit_rolling_params]

/-- Witness for C7: a cointegration test that always fails yields
p-value 1 at the first produced timestamp. -/
theorem fit_rolling_params_pval_default_witness :
    (fit_rolling_params (fun _ _ => ((0 : ℚ), (0 : ℚ)))
        (fun _ _ => none) ⟨[0, 1], [1, 2]⟩ ⟨[0, 1], [3, 4]⟩
        1).2.2.2.2.values.getD 0 0 = 1 :=
  (fit_rolling_params_pval_default (fun _ _ => ((0 : ℚ), (0 : ℚ)))
    (fun _ _ => none) ⟨[0, 1], [1, 2]⟩ ⟨[0, 1], [3, 4]⟩ 1 0
    (by decide) rfl).1
